import Mathlib

/-!
Verification of the eztrans-rs escape codec and IPC command dispatcher.

The development shallowly embeds the Rust sources:
  * the escape codec `hangul_encode` / `hangul_decode` and the helper
    predicate `is_hangul_range` from `src/lib.rs`,
  * the translate wrappers `translate_mmnt` / `translate_mmntw` /
    `default_translate` from `src/lib.rs` (the raw `J2K_*` FFI calls and the
    table-driven SHIFT_JIS / EUC-KR conversions of `encoding_rs` are external
    collaborators and appear as function parameters),
  * the wire command set of `src/ipc_protocol.rs` and the dispatcher
    `TransProxyServer` of `src/server.rs`.

Text is represented by the list of its Unicode code points (`List Nat`);
Rust `char` values are Unicode scalar values, and equality of `char`s is
equality of code points, so this representation is faithful.
-/

set_option maxRecDepth 10000

namespace EzTrans

/-- The private character set `EzTransEngine.special_chars` built in
`EzTransEngine::new` (src/lib.rs lines 91-117), as code points, in source
order.  The set is a compile-time constant: `new` always inserts exactly
these characters. -/
def specialCharCodes : List Nat := [
  8596, 9665, 9664, 9655, 9654, 9828, 9824, 9825, 9829, 9831, 9827, 8857, 9672, 9635, 9680, 9681,
  9618, 9636, 9637, 9640, 9639, 9638, 9641, 9832, 9743, 9742, 9756, 9758, 8597, 8599, 8601, 8598,
  8600, 9833, 9836, 12927, 12828, 13255, 8482, 13250, 13272, 65282, 65287, 8764, 711, 728, 733, 161,
  730, 729, 731, 191, 720, 8719, 65510, 8457, 8364, 13205, 13206, 13207, 8467, 13208, 13219, 13220,
  13221, 13222, 13209, 13210, 13211, 13215, 13216, 13218, 13258, 13197, 13263, 13192, 13193, 13256,
  13223, 13224, 13232, 13233, 13234, 13235, 13236, 13237, 13238, 13239, 13240, 13184, 13185, 13186,
  13187, 13188, 13242, 13243, 13244, 13245, 13246, 13247, 13200, 13201, 13202, 13203, 13204, 937,
  13248, 13249, 13194, 13195, 13196, 13270, 13253, 13229, 13230, 13231, 13275, 13225, 13226, 13227,
  13228, 13277, 13264, 13267, 13251, 13257, 13276, 13254, 9490, 9489, 9498, 9497, 9494, 9493, 9486,
  9485, 9502, 9503, 9505, 9506, 9510, 9511, 9514, 9517, 9518, 9525, 9526, 9529, 9530, 9533, 9534,
  9536, 9537, 9539, 9540, 9541, 9542, 9543, 9544, 9545, 9546, 9521, 9522, 8560, 8561, 8562, 8563,
  8564, 8565, 8566, 8567, 8568, 8569, 189, 8531, 8532, 188, 190, 8539, 8540, 8541, 8542, 8319, 8321,
  8322, 8323, 8324, 330, 273, 294, 306, 319, 321, 338, 358, 295, 305, 307, 312, 320, 322, 339, 359,
  331, 329, 12896, 12897, 12898, 12899, 12900, 12901, 12902, 12903, 12904, 12905, 12906, 12907,
  12908, 12909, 12910, 12911, 12912, 12913, 12914, 12915, 12916, 12917, 12918, 12919, 12920, 12921,
  12922, 12923, 12800, 12801, 12802, 12803, 12804, 12805, 12806, 12807, 12808, 12809, 12810, 12811,
  12812, 12813, 12814, 12815, 12816, 12817, 12818, 12819, 12820, 12821, 12822, 12823, 12824, 12825,
  12826, 12827, 9424, 9425, 9426, 9427, 9428, 9429, 9430, 9431, 9432, 9433, 9434, 9435, 9436, 9437,
  9438, 9439, 9440, 9441, 9442, 9443, 9444, 9445, 9446, 9447, 9448, 9449, 9312, 9313, 9314, 9315,
  9316, 9317, 9318, 9319, 9320, 9321, 9322, 9323, 9324, 9325, 9326, 9372, 9373, 9374, 9375, 9376,
  9377, 9378, 9379, 9380, 9381, 9382, 9383, 9384, 9385, 9386, 9387, 9388, 9389, 9390, 9391, 9392,
  9393, 9394, 9395, 9396, 9397, 9332, 9333, 9334, 9335, 9336, 9337, 9338, 9339, 9340, 9341, 9342,
  9343, 9344, 9345, 9346]

/-- `self.special_chars.contains(&c)`: membership of a code point in the
special character set. -/
def isSpecialChar (c : Nat) : Bool := specialCharCodes.contains c

/-- `EzTransEngine::is_hangul_range` (src/lib.rs lines 510-516). -/
def is_hangul_range (code : Nat) : Bool :=
  (0x1100 ≤ code && code ≤ 0x11FF) ||
  (0x3130 ≤ code && code ≤ 0x318F) ||
  (0xA960 ≤ code && code ≤ 0xA97F) ||
  (0xAC00 ≤ code && code ≤ 0xD7A3) ||
  (0xD7B0 ≤ code && code ≤ 0xD7FF)

/-- The per-character "needs encoding" test of the closure inside
`default_translate` (src/lib.rs lines 460-465):
`c == '@' || c == '\0' || is_hangul_range(c) || special_chars.contains(&c)`.
Code point 64 is the at sign and 0 the NUL character. -/
def needsEncodingChar (c : Nat) : Bool :=
  c = 64 || c = 0 || is_hangul_range c || isSpecialChar c

/-- One uppercase hexadecimal digit (`0..9`, `A..F`) for a nibble value. -/
def hexDigitUpper (k : Nat) : Nat := if k < 10 then 48 + k else 55 + k

/-- `write!("{:04X}", n)` for `n < 0x10000`: four uppercase hexadecimal
digits, left padded with zeros.  Every code point the codec formats lies
below `0x10000` (the Hangul ranges end at 0xD7FF, `'@'` is 0x40, NUL is 0,
and every member of `specialCharCodes` is below 0x10000), so the width is
always exactly four. -/
def format04X (n : Nat) : List Nat :=
  [hexDigitUpper (n / 4096 % 16), hexDigitUpper (n / 256 % 16),
   hexDigitUpper (n / 16 % 16), hexDigitUpper (n % 16)]

/-- `EzTransEngine::hangul_encode` (src/lib.rs lines 492-506).  Code point
43 is the plus sign, 120 lowercase x and 88 uppercase X. -/
def hangul_encode : List Nat → List Nat
  | [] => []
  | c :: rest =>
    if c = 64 || c = 0 || is_hangul_range c then
      43 :: 120 :: (format04X c ++ hangul_encode rest)
    else if isSpecialChar c then
      43 :: 88 :: (format04X c ++ hangul_encode rest)
    else
      c :: hangul_encode rest

/-- `u8::is_ascii_hexdigit` on a code point: `0..9`, `a..f`, `A..F`. -/
def isAsciiHexDigit (c : Nat) : Bool :=
  (48 ≤ c && c ≤ 57) || (97 ≤ c && c ≤ 102) || (65 ≤ c && c ≤ 70)

/-- Value of one hexadecimal digit character (0 on non-digits, a case the
codec never reaches because it tests `isAsciiHexDigit` first). -/
def hexDigitVal (c : Nat) : Nat :=
  if 48 ≤ c && c ≤ 57 then c - 48
  else if 97 ≤ c && c ≤ 102 then c - 87
  else if 65 ≤ c && c ≤ 70 then c - 55
  else 0

/-- `u32::from_str_radix(&hex, 16)` on a string of hexadecimal digits. -/
def fromHexDigits (l : List Nat) : Nat :=
  l.foldl (fun a c => a * 16 + hexDigitVal c) 0

/-- `char::from_u32(code).is_some()`: `code` is a Unicode scalar value. -/
def isValidCharCode (code : Nat) : Bool :=
  code < 0xD800 || (0xDFFF < code && code < 0x110000)

/-- `EzTransEngine::hangul_decode` (src/lib.rs lines 519-558).  The Rust
loop walks a peekable character iterator; on `'+'` followed by `'x'`/`'X'`
it consumes up to four further characters (`chars.by_ref().take(4)`),
decodes them when they are four hexadecimal digits denoting a scalar
value, and otherwise re-emits the plus sign, the marker variant and the
consumed characters verbatim before continuing.  The `take(4)` is unrolled
into the list patterns: when at least four characters remain they are
`d1 d2 d3 d4`, and when fewer remain (`hex.len() == 4` fails) the whole
tail is consumed and re-emitted, ending the loop.  `u32::from_str_radix`
cannot fail on four hexadecimal digits, so its failure arm collapses into
the scalar value test of `char::from_u32`. -/
def hangul_decode : List Nat → List Nat
  | [] => []
  | c :: rest =>
    if c = 43 then
      match rest with
      | [] => [43]
      | next :: rest2 =>
        if next = 120 || next = 88 then
          match rest2 with
          | d1 :: d2 :: d3 :: d4 :: rest3 =>
            if [d1, d2, d3, d4].all isAsciiHexDigit
                && isValidCharCode (fromHexDigits [d1, d2, d3, d4]) then
              fromHexDigits [d1, d2, d3, d4] :: hangul_decode rest3
            else
              43 :: next :: d1 :: d2 :: d3 :: d4 :: hangul_decode rest3
          | short => 43 :: next :: short
        else
          43 :: hangul_decode (next :: rest2)
    else
      c :: hangul_decode rest

/-- A literal occurrence of the escape marker: a plus sign immediately
followed by `x` or `X`.  Texts containing such a pair look like escape
sequences to `hangul_decode`; the spec calls this the accepted ambiguity. -/
def hasEscapeMarker : List Nat → Bool
  | [] => false
  | [_] => false
  | c :: next :: rest =>
    (c = 43 && (next = 120 || next = 88)) || hasEscapeMarker (next :: rest)

/-! ### Engine translate wrappers (src/lib.rs)

The raw `J2K_*` function pointers and the table-driven `encoding_rs`
codecs are external collaborators; they appear as function parameters.
A function pointer is an `Option`, mirroring the `Option<J2K_...>` fields
of `EzTransEngine`; the pointed-to function returning `none` models a null
result pointer. -/

/-- Error values produced by the translate wrappers
(`EzTransError` / `TransErr`, src/error.rs). -/
inductive EngineCallError
  | functionLoadError
  | nullPointer
  | eucKrDecodeFailed
  | utf16Error
deriving DecidableEq

/-- `str::encode_utf16` on a sequence of Unicode scalar values: one code
unit below 0x10000, otherwise a surrogate pair. -/
def utf16Encode : List Nat → List Nat
  | [] => []
  | c :: r =>
    if c < 0x10000 then c :: utf16Encode r
    else (0xD800 + (c - 0x10000) / 0x400) :: (0xDC00 + (c - 0x10000) % 0x400) :: utf16Encode r

/-- `String::from_utf16`: strict UTF-16 decoding, failing on unpaired
surrogates. -/
def utf16Decode : List Nat → Option (List Nat)
  | [] => some []
  | u :: rest =>
    if u < 0xD800 || 0xDFFF < u then
      (utf16Decode rest).map (fun t => u :: t)
    else if u < 0xDC00 then
      match rest with
      | u2 :: rest2 =>
        if 0xDC00 ≤ u2 && u2 ≤ 0xDFFF then
          (utf16Decode rest2).map (fun t => (0x10000 + (u - 0xD800) * 0x400 + (u2 - 0xDC00)) :: t)
        else none
      | [] => none
    else none

/-- `EzTransEngine::translate_mmnt` (src/lib.rs lines 423-456).
`sjis_encode` stands for `encoding_rs::SHIFT_JIS.encode` (text to bytes),
`mmnt_fn` for the loaded `J2K_TranslateMMNT` pointer, and `euc_kr_decode`
for `encoding_rs::EUC_KR.decode` returning the decoded text together with
the `had_errors` flag.  `CStr::from_ptr` reads the returned bytes up to the
first NUL.  Note that the input text is passed to the engine after only the
Shift-JIS conversion: `hangul_encode` is never applied here. -/
def translate_mmnt (mmnt_fn : Option (List Nat → Option (List Nat)))
    (sjis_encode : List Nat → List Nat)
    (euc_kr_decode : List Nat → List Nat × Bool)
    (input : List Nat) : Except EngineCallError (List Nat) :=
  let input_sjis := sjis_encode input
  match mmnt_fn with
  | none => .error .functionLoadError
  | some f =>
    match f input_sjis with
    | none => .error .nullPointer
    | some ret =>
      let dec := euc_kr_decode (ret.takeWhile (fun b => ¬ b = 0))
      if dec.2 then .error .eucKrDecodeFailed else .ok dec.1

/-- `EzTransEngine::translate_mmntw` (src/lib.rs lines 392-421): the input
is UTF-16 encoded with a trailing NUL code unit, the result is read up to
the first NUL code unit and decoded strictly. -/
def translate_mmntw (mmntw_fn : Option (List Nat → Option (List Nat)))
    (input : List Nat) : Except EngineCallError (List Nat) :=
  let input_wide := utf16Encode input ++ [0]
  match mmntw_fn with
  | none => .error .functionLoadError
  | some f =>
    match f input_wide with
    | none => .error .nullPointer
    | some ret =>
      match utf16Decode (ret.takeWhile (fun u => ¬ u = 0)) with
      | none => .error .utf16Error
      | some s => .ok s

/-- `EzTransEngine::default_translate` (src/lib.rs lines 458-489):
`hangul_encode` is applied exactly when some character of the input needs
encoding, the engine call goes through `translate_mmntw` when
`initialize_ex` was loaded and through `translate_mmnt` otherwise, and
`hangul_decode` is applied to the engine output exactly when the input was
encoded. -/
def default_translate (has_initialize_ex : Bool)
    (mmntw_fn mmnt_fn : Option (List Nat → Option (List Nat)))
    (sjis_encode : List Nat → List Nat)
    (euc_kr_decode : List Nat → List Nat × Bool)
    (input : List Nat) : Except EngineCallError (List Nat) :=
  let needs_encoding := input.any needsEncodingChar
  let encoded := if needs_encoding then hangul_encode input else input
  match (if has_initialize_ex then translate_mmntw mmntw_fn encoded
         else translate_mmnt mmnt_fn sjis_encode euc_kr_decode encoded) with
  | .error e => .error e
  | .ok translated => .ok (if needs_encoding then hangul_decode translated else translated)

/-! ### Wire protocol (src/ipc_protocol.rs) and dispatcher (src/server.rs)

The dispatcher is modelled over an abstract engine type `E`: the engine is
reached only through FFI, so its construction (`EzTransEngine::new`
together with the path formatting feeding it) appears as a parameter
`enew`, and the methods the server invokes appear as an `EngineOps`
record.  The named pipe is modelled as a list of typed wire records; a
read finding the wrong record (on the byte pipe: the wrong byte count)
is the `IncompleteRead` failure, and writes are collected into the
returned response list (`WriteFile` failures are not modelled). -/

/-- The error variants of `EzTransError` the protocol layer constructs
(src/server.rs lines 48, 83, 104 and src/ipc_protocol.rs line 33). -/
inductive ProtocolError
  | invalidCommand (value : Nat)
  | incompleteRead
  | incompleteWrite
  | pipeError
deriving DecidableEq

/-- `Command` (src/ipc_protocol.rs lines 7-18). -/
inductive Command
  | Initialize
  | Terminate
  | TranslateMMNT
  | TranslateMMNTW
  | ReloadUserDict
  | SetProperty
  | Shutdown
  | Ping
deriving DecidableEq

/-- `impl TryFrom<u32> for Command` (src/ipc_protocol.rs lines 20-36). -/
def Command.tryFrom (value : Nat) : Except ProtocolError Command :=
  match value with
  | 1 => .ok .Initialize
  | 2 => .ok .Terminate
  | 3 => .ok .TranslateMMNT
  | 4 => .ok .TranslateMMNTW
  | 5 => .ok .ReloadUserDict
  | 6 => .ok .SetProperty
  | 7 => .ok .Shutdown
  | 8 => .ok .Ping
  | v => .error (.invalidCommand v)

/-- `Status` (src/ipc_protocol.rs lines 38-46). -/
inductive Status
  | Success
  | Error
  | NotInitialized
  | InvalidParameter
deriving DecidableEq

/-- `MessageHeader` (src/ipc_protocol.rs lines 48-54). -/
structure MessageHeader where
  command : Nat
  payload_size : Nat
  request_id : Nat
deriving DecidableEq

/-- The request records that travel on the pipe after a header
(src/ipc_protocol.rs).  Text buffers carry their code units: `mmntReq.text`
is the 4096-byte legacy buffer, `mmntwReq.text` the 4096-unit UTF-16
buffer, `initReq.engine_path` the 260-unit UTF-16 path buffer. -/
inductive WireRec
  | header (h : MessageHeader)
  | initReq (engine_path : List Nat)
  | mmntReq (data0 : Nat) (text : List Nat)
  | mmntwReq (data0 : Nat) (text : List Nat)
  | setPropReq (property_id : Int) (value : Int)
deriving DecidableEq

/-- The response records the dispatcher writes (src/ipc_protocol.rs):
`InitializeResponse`, `TranslateMMNTResponse`, `TranslateMMNTWResponse`
and `GenericResponse`. -/
inductive Response
  | initResp (status : Status) (success : Bool)
  | mmnt (status : Status) (result_code : Int) (translated : List Nat)
  | mmntw (status : Status) (result_code : Int) (translated : List Nat)
  | generic (status : Status)
deriving DecidableEq

/-- The session state of `TransProxyServer` (src/server.rs lines 15-20);
the pipe handle is not modelled. -/
structure ServerState (E : Type) where
  engine : Option E
  initialized : Bool
  running : Bool
deriving DecidableEq

/-- `TransProxyServer::new` (src/server.rs lines 23-30). -/
def newServer (E : Type) : ServerState E :=
  { engine := none, initialized := false, running := true }

/-- The engine methods the dispatcher invokes, as external behaviors over
an abstract engine type.  A `Bool` result is success/failure of the
corresponding fallible call. -/
structure EngineOps (E : Type) where
  initialize_ex : E → Bool
  terminate : E → Bool
  reload_user_dict : E → Bool
  set_property : E → Int → Int → Bool
  translate_mmnt : E → List Nat → Except EngineCallError (List Nat)
  default_translate : E → List Nat → Except EngineCallError (List Nat)

/-- The table-driven text conversions the handlers call
(`encoding_rs::SHIFT_JIS.decode`, `encoding_rs::EUC_KR.encode`,
`String::from_utf16_lossy`), external collaborators. -/
structure Codecs where
  sjis_decode : List Nat → List Nat
  euc_kr_encode : List Nat → List Nat
  utf16_lossy : List Nat → List Nat

/-- `TransProxyServer::handle_initialize` (src/server.rs lines 142-183).
Path decoding and the `\J2KEngine.dll` / `\Dat` formatting feed only the
external constructor and are folded into `enew`; `ops.initialize_ex`
is `engine.initialize_ex("CSUSER123455", dat_path)`.  On either failure
the session state is left untouched and an error response is written. -/
def handle_initialize {E : Type} (ops : EngineOps E) (enew : List Nat → Option E)
    (st : ServerState E) (stream : List WireRec) :
    Except ProtocolError (ServerState E × List WireRec × List Response) :=
  match stream with
  | .initReq engine_path :: rest =>
    match enew engine_path with
    | some engine =>
      if ops.initialize_ex engine then
        .ok ({ st with engine := some engine, initialized := true }, rest,
          [.initResp .Success true])
      else
        .ok (st, rest, [.initResp .Error false])
    | none => .ok (st, rest, [.initResp .Error false])
  | _ => .error .incompleteRead

/-- `TransProxyServer::handle_terminate` (src/server.rs lines 185-196):
the engine's terminate result is discarded (`let _ = ...`), the engine is
dropped and the flags cleared, and a Success response is always written. -/
def handle_terminate {E : Type} (_ops : EngineOps E)
    (st : ServerState E) (stream : List WireRec) :
    Except ProtocolError (ServerState E × List WireRec × List Response) :=
  .ok ({ st with engine := none, initialized := false }, stream, [.generic .Success])

/-- `TransProxyServer::handle_translate_mmnt` (src/server.rs lines
198-237).  `text.findIdx (· = 0)` is `position(|&x| x == 0).unwrap_or(4096)`
on the 4096-byte wire buffer. -/
def handle_translate_mmnt {E : Type} (ops : EngineOps E) (cds : Codecs)
    (st : ServerState E) (stream : List WireRec) :
    Except ProtocolError (ServerState E × List WireRec × List Response) :=
  match stream with
  | .mmntReq _data0 text :: rest =>
    match st.engine with
    | some engine =>
      let text_len := text.findIdx (fun x => x = 0)
      let decoded := cds.sjis_decode (text.take text_len)
      match ops.translate_mmnt engine decoded with
      | .ok translated =>
        let encoded := cds.euc_kr_encode translated
        let len := min encoded.length 4096
        .ok (st, rest, [.mmnt .Success 0 (encoded.take len ++ List.replicate (4096 - len) 0)])
      | .error _ => .ok (st, rest, [.mmnt .Error (-1) (List.replicate 4096 0)])
    | none => .ok (st, rest, [.mmnt .NotInitialized (-1) (List.replicate 4096 0)])
  | _ => .error .incompleteRead

/-- `TransProxyServer::handle_translate_mmntw` (src/server.rs lines
239-277).  The translation is truncated to 4095 UTF-16 code units and
`translated[len] = 0` writes the terminator; positions past the copied
text keep the zero initialization, so the resulting buffer is the copied
units followed by zeros. -/
def handle_translate_mmntw {E : Type} (ops : EngineOps E) (cds : Codecs)
    (st : ServerState E) (stream : List WireRec) :
    Except ProtocolError (ServerState E × List WireRec × List Response) :=
  match stream with
  | .mmntwReq _data0 text :: rest =>
    match st.engine with
    | some engine =>
      let text_len := text.findIdx (fun x => x = 0)
      let input := cds.utf16_lossy (text.take text_len)
      match ops.default_translate engine input with
      | .ok translated =>
        let utf16 := utf16Encode translated
        let len := min utf16.length 4095
        .ok (st, rest, [.mmntw .Success 0 (utf16.take len ++ List.replicate (4096 - len) 0)])
      | .error _ => .ok (st, rest, [.mmntw .Error (-1) (List.replicate 4096 0)])
    | none => .ok (st, rest, [.mmntw .NotInitialized (-1) (List.replicate 4096 0)])
  | _ => .error .incompleteRead

/-- `TransProxyServer::handle_reload_user_dict` (src/server.rs lines
279-288): best effort, reload failures are swallowed, always Success. -/
def handle_reload_user_dict {E : Type} (_ops : EngineOps E)
    (st : ServerState E) (stream : List WireRec) :
    Except ProtocolError (ServerState E × List WireRec × List Response) :=
  .ok (st, stream, [.generic .Success])

/-- `TransProxyServer::handle_set_property` (src/server.rs lines 290-313). -/
def handle_set_property {E : Type} (ops : EngineOps E)
    (st : ServerState E) (stream : List WireRec) :
    Except ProtocolError (ServerState E × List WireRec × List Response) :=
  match stream with
  | .setPropReq property_id value :: rest =>
    match st.engine with
    | some engine =>
      if ops.set_property engine property_id value then
        .ok (st, rest, [.generic .Success])
      else
        .ok (st, rest, [.generic .Error])
    | none => .ok (st, rest, [.generic .NotInitialized])
  | _ => .error .incompleteRead

/-- `TransProxyServer::process_request` (src/server.rs lines 111-140):
read a header, decode the command (an unrecognized code is rejected here,
before any payload is read), then dispatch.  Shutdown flips `running` and
writes nothing; Ping writes a Success `GenericResponse`. -/
def process_request {E : Type} (ops : EngineOps E) (enew : List Nat → Option E)
    (cds : Codecs) (st : ServerState E) (stream : List WireRec) :
    Except ProtocolError (ServerState E × List WireRec × List Response) :=
  match stream with
  | .header h :: rest =>
    match Command.tryFrom h.command with
    | .error e => .error e
    | .ok c =>
      match c with
      | .Initialize => handle_initialize ops enew st rest
      | .Terminate => handle_terminate ops st rest
      | .TranslateMMNT => handle_translate_mmnt ops cds st rest
      | .TranslateMMNTW => handle_translate_mmntw ops cds st rest
      | .ReloadUserDict => handle_reload_user_dict ops st rest
      | .SetProperty => handle_set_property ops st rest
      | .Shutdown => .ok ({ st with running := false }, rest, [])
      | .Ping => .ok (st, rest, [.generic .Success])
  | _ => .error .incompleteRead

/-- `TransProxyServer::run` (src/server.rs lines 60-67): loop while
`running`, breaking on any `process_request` error.  The loop consumes at
least one wire record per iteration; `fuel` bounds the number of
iterations so that every run of the Rust loop is a run of this function
for sufficiently large fuel. -/
def run {E : Type} (ops : EngineOps E) (enew : List Nat → Option E) (cds : Codecs) :
    Nat → ServerState E → List WireRec → ServerState E × List Response
  | 0, st, _ => (st, [])
  | fuel + 1, st, stream =>
    if st.running then
      match process_request ops enew cds st stream with
      | .error _ => (st, [])
      | .ok (st', stream', resps) =>
        let r := run ops enew cds fuel st' stream'
        (r.1, resps ++ r.2)
    else (st, [])


/-! ### Concrete environments used by witnesses and counterexamples -/

/-- An engine environment over the trivial engine type in which every
engine call succeeds and translation is the identity. -/
def trivOps : EngineOps Unit where
  initialize_ex := fun _ => true
  terminate := fun _ => true
  reload_user_dict := fun _ => true
  set_property := fun _ _ _ => true
  translate_mmnt := fun _ t => .ok t
  default_translate := fun _ t => .ok t

/-- An engine constructor that always succeeds. -/
def trivEnew : List Nat → Option Unit := fun _ => some ()

/-- Identity character-set conversions: Shift-JIS, EUC-KR and UTF-16 all
agree with the identity on ASCII text, which is all the concrete witnesses
use. -/
def trivCodecs : Codecs where
  sjis_decode := fun t => t
  euc_kr_encode := fun t => t
  utf16_lossy := fun t => t

/-- An engine whose legacy translation always returns 4096 bytes of the
ASCII digit one (code 49): the EUC-KR encoding of such a result is those
same 4096 non-zero bytes. -/
def fullOps : EngineOps Unit where
  initialize_ex := fun _ => true
  terminate := fun _ => true
  reload_user_dict := fun _ => true
  set_property := fun _ _ _ => true
  translate_mmnt := fun _ _ => .ok (List.replicate 4096 49)
  default_translate := fun _ t => .ok t

/-- An engine environment whose extended initialization always fails. -/
def failInitOps : EngineOps Unit where
  initialize_ex := fun _ => false
  terminate := fun _ => true
  reload_user_dict := fun _ => true
  set_property := fun _ _ _ => true
  translate_mmnt := fun _ t => .ok t
  default_translate := fun _ t => .ok t

/-- A session state holding an engine, as left by a successful
Initialize. -/
def initializedState : ServerState Unit :=
  { engine := some (), initialized := true, running := true }

theorem hangul_decode_cons_ne (c : Nat) (rest : List Nat) (h : ¬ c = 43) :
    hangul_decode (c :: rest) = c :: hangul_decode rest := by
  rw [hangul_decode.eq_def]
  simp [h]

theorem hangul_decode_plus_nonmarker (next : Nat) (rest2 : List Nat)
    (h1 : ¬ next = 120) (h2 : ¬ next = 88) :
    hangul_decode (43 :: next :: rest2) = 43 :: hangul_decode (next :: rest2) := by
  rw [hangul_decode.eq_def]
  simp [h1, h2]

theorem hangul_decode_escape_valid (next d1 d2 d3 d4 : Nat) (rest3 : List Nat)
    (hn : next = 120 ∨ next = 88)
    (hh : [d1, d2, d3, d4].all isAsciiHexDigit = true)
    (hv : isValidCharCode (fromHexDigits [d1, d2, d3, d4]) = true) :
    hangul_decode (43 :: next :: d1 :: d2 :: d3 :: d4 :: rest3) =
      fromHexDigits [d1, d2, d3, d4] :: hangul_decode rest3 := by
  rw [hangul_decode.eq_def]
  rcases hn with h | h <;> simp [h, hh, hv]

theorem hangul_decode_escape_invalid (next d1 d2 d3 d4 : Nat) (rest3 : List Nat)
    (hn : next = 120 ∨ next = 88)
    (hc : ¬ ([d1, d2, d3, d4].all isAsciiHexDigit = true ∧
        isValidCharCode (fromHexDigits [d1, d2, d3, d4]) = true)) :
    hangul_decode (43 :: next :: d1 :: d2 :: d3 :: d4 :: rest3) =
      43 :: next :: d1 :: d2 :: d3 :: d4 :: hangul_decode rest3 := by
  rw [hangul_decode.eq_def]
  rw [Decidable.not_and_iff_or_not] at hc
  rcases hn with h | h <;> rcases hc with hc | hc <;>
    simp [h, Bool.eq_false_iff.mpr hc]

theorem hangul_decode_escape_short (next : Nat) (rest2 : List Nat)
    (hn : next = 120 ∨ next = 88) (hlen : rest2.length < 4) :
    hangul_decode (43 :: next :: rest2) = 43 :: next :: rest2 := by
  rw [hangul_decode.eq_def]
  match rest2, hlen with
  | [], _ => rcases hn with h | h <;> simp [h]
  | [a], _ => rcases hn with h | h <;> simp [h]
  | [a, b], _ => rcases hn with h | h <;> simp [h]
  | [a, b, c], _ => rcases hn with h | h <;> simp [h]

theorem hangul_encode_protected (c : Nat) (rest : List Nat)
    (h1 : (c = 64 || c = 0 || is_hangul_range c) = true) :
    hangul_encode (c :: rest) = 43 :: 120 :: (format04X c ++ hangul_encode rest) := by
  simp [hangul_encode, h1]

theorem hangul_encode_special (c : Nat) (rest : List Nat)
    (h1 : ¬ (c = 64 || c = 0 || is_hangul_range c) = true)
    (h2 : isSpecialChar c = true) :
    hangul_encode (c :: rest) = 43 :: 88 :: (format04X c ++ hangul_encode rest) := by
  simp [hangul_encode, h1, h2]

theorem hangul_encode_plain (c : Nat) (rest : List Nat)
    (h1 : ¬ (c = 64 || c = 0 || is_hangul_range c) = true)
    (h2 : ¬ isSpecialChar c = true) :
    hangul_encode (c :: rest) = c :: hangul_encode rest := by
  simp [hangul_encode, h1, h2]

/-- The sixteen nibble values format to uppercase hexadecimal digit
characters that read back to the same value. -/
theorem hexDigit_roundtrip : ∀ k < 16,
    hexDigitVal (hexDigitUpper k) = k ∧ isAsciiHexDigit (hexDigitUpper k) = true := by
  decide

/-- `{:04X}` followed by hexadecimal parsing is the identity below 0x10000,
and produces four hexadecimal digit characters. -/
theorem format04X_spec (n : Nat) (h : n < 65536) :
    (format04X n).all isAsciiHexDigit = true ∧ fromHexDigits (format04X n) = n := by
  have b1 : n / 4096 % 16 < 16 := Nat.mod_lt _ (by norm_num)
  have b2 : n / 256 % 16 < 16 := Nat.mod_lt _ (by norm_num)
  have b3 : n / 16 % 16 < 16 := Nat.mod_lt _ (by norm_num)
  have b4 : n % 16 < 16 := Nat.mod_lt _ (by norm_num)
  refine ⟨?_, ?_⟩
  · simp only [format04X, List.all_cons, List.all_nil, Bool.and_true, Bool.and_eq_true]
    exact ⟨(hexDigit_roundtrip _ b1).2, (hexDigit_roundtrip _ b2).2,
      (hexDigit_roundtrip _ b3).2, (hexDigit_roundtrip _ b4).2⟩
  · simp only [format04X, fromHexDigits, List.foldl_cons, List.foldl_nil, Nat.zero_mul,
      Nat.zero_add]
    rw [(hexDigit_roundtrip _ b1).1, (hexDigit_roundtrip _ b2).1,
      (hexDigit_roundtrip _ b3).1, (hexDigit_roundtrip _ b4).1]
    omega

/-- Characters taken by the first (`+x`) branch of `hangul_encode` lie below
0x10000 and are Unicode scalar values. -/
theorem protected_valid (c : Nat) (h : (c = 64 || c = 0 || is_hangul_range c) = true) :
    c < 65536 ∧ isValidCharCode c = true := by
  simp only [is_hangul_range, Bool.or_eq_true, Bool.and_eq_true, decide_eq_true_eq] at h
  simp only [isValidCharCode, Bool.or_eq_true, Bool.and_eq_true, decide_eq_true_eq]
  omega

/-- Every member of the special character set lies below 0x10000 and is a
Unicode scalar value. -/
theorem special_valid (c : Nat) (h : isSpecialChar c = true) :
    c < 65536 ∧ isValidCharCode c = true := by
  have hmem : c ∈ specialCharCodes := by
    simpa [isSpecialChar] using h
  have hall : ∀ x ∈ specialCharCodes, x < 65536 ∧ isValidCharCode x = true := by decide
  exact hall c hmem

theorem hasEscapeMarker_tail (c : Nat) (rest : List Nat)
    (h : hasEscapeMarker (c :: rest) = false) : hasEscapeMarker rest = false := by
  cases rest with
  | nil => rfl
  | cons next r =>
    simp only [hasEscapeMarker, Bool.or_eq_false_iff] at h
    exact h.2

theorem hasEscapeMarker_head (next : Nat) (r : List Nat)
    (h : hasEscapeMarker (43 :: next :: r) = false) : ¬ next = 120 ∧ ¬ next = 88 := by
  simp [hasEscapeMarker] at h
  exact ⟨h.1.1, h.1.2⟩

/-- Decoding after a literal plus sign whose successor in the original text
is not a marker variant: the head of the encoded tail is either the plus
sign opening an escape block or the (unprotected) successor itself, so the
decoder emits the plus sign verbatim. -/
theorem hangul_decode_plus_encode (rest : List Nat)
    (h : ∀ c2 r2, rest = c2 :: r2 → ¬ c2 = 120 ∧ ¬ c2 = 88) :
    hangul_decode (43 :: hangul_encode rest) = 43 :: hangul_decode (hangul_encode rest) := by
  cases rest with
  | nil => decide
  | cons c2 r2 =>
    obtain ⟨h120, h88⟩ := h c2 r2 rfl
    by_cases h1 : (c2 = 64 || c2 = 0 || is_hangul_range c2) = true
    · rw [hangul_encode_protected c2 r2 h1]
      exact hangul_decode_plus_nonmarker 43 _ (by norm_num) (by norm_num)
    · by_cases h2 : isSpecialChar c2 = true
      · rw [hangul_encode_special c2 r2 h1 h2]
        exact hangul_decode_plus_nonmarker 43 _ (by norm_num) (by norm_num)
      · rw [hangul_encode_plain c2 r2 h1 h2]
        exact hangul_decode_plus_nonmarker c2 _ h120 h88

/-- `hangul_decode` is the identity on any text free of literal escape
markers (regardless of which characters it contains). -/
theorem hangul_decode_id (t : List Nat) (h : hasEscapeMarker t = false) :
    hangul_decode t = t := by
  induction t with
  | nil => rfl
  | cons c rest ih =>
    by_cases hc : c = 43
    · subst hc
      cases rest with
      | nil => decide
      | cons next r2 =>
        obtain ⟨h120, h88⟩ := hasEscapeMarker_head next r2 h
        rw [hangul_decode_plus_nonmarker next r2 h120 h88,
          ih (hasEscapeMarker_tail _ _ h)]
    · rw [hangul_decode_cons_ne c rest hc, ih (hasEscapeMarker_tail _ _ h)]

/-- Round trip of the escape codec on texts free of literal escape
markers. -/
theorem hangul_decode_encode (t : List Nat) (h : hasEscapeMarker t = false) :
    hangul_decode (hangul_encode t) = t := by
  induction t with
  | nil => rfl
  | cons c rest ih =>
    have ihr := ih (hasEscapeMarker_tail _ _ h)
    by_cases h1 : (c = 64 || c = 0 || is_hangul_range c) = true
    · obtain ⟨hlt, hvalid⟩ := protected_valid c h1
      obtain ⟨hhex, hval⟩ := format04X_spec c hlt
      rw [hangul_encode_protected c rest h1]
      simp only [format04X, List.cons_append, List.nil_append]
      rw [hangul_decode_escape_valid 120 _ _ _ _ _ (Or.inl rfl)
        (by simpa [format04X] using hhex) (by rw [show [hexDigitUpper (c / 4096 % 16),
          hexDigitUpper (c / 256 % 16), hexDigitUpper (c / 16 % 16),
          hexDigitUpper (c % 16)] = format04X c from rfl, hval]; exact hvalid)]
      rw [show [hexDigitUpper (c / 4096 % 16), hexDigitUpper (c / 256 % 16),
        hexDigitUpper (c / 16 % 16), hexDigitUpper (c % 16)] = format04X c from rfl, hval, ihr]
    · by_cases h2 : isSpecialChar c = true
      · obtain ⟨hlt, hvalid⟩ := special_valid c h2
        obtain ⟨hhex, hval⟩ := format04X_spec c hlt
        rw [hangul_encode_special c rest h1 h2]
        simp only [format04X, List.cons_append, List.nil_append]
        rw [hangul_decode_escape_valid 88 _ _ _ _ _ (Or.inr rfl)
          (by simpa [format04X] using hhex) (by rw [show [hexDigitUpper (c / 4096 % 16),
            hexDigitUpper (c / 256 % 16), hexDigitUpper (c / 16 % 16),
            hexDigitUpper (c % 16)] = format04X c from rfl, hval]; exact hvalid)]
        rw [show [hexDigitUpper (c / 4096 % 16), hexDigitUpper (c / 256 % 16),
          hexDigitUpper (c / 16 % 16), hexDigitUpper (c % 16)] = format04X c from rfl, hval, ihr]
      · rw [hangul_encode_plain c rest h1 h2]
        by_cases hc : c = 43
        · subst hc
          rw [hangul_decode_plus_encode rest ?_, ihr]
          intro c2 r2 hr
          subst hr
          exact hasEscapeMarker_head c2 r2 h
        · rw [hangul_decode_cons_ne c _ hc, ihr]

/-- `hangul_encode` is the identity on texts none of whose characters
satisfy the per-character needs-encoding test. -/
theorem hangul_encode_id (t : List Nat)
    (h : ∀ c ∈ t, needsEncodingChar c = false) :
    hangul_encode t = t := by
  induction t with
  | nil => rfl
  | cons c rest ih =>
    have hc := h c (List.mem_cons_self c rest)
    simp only [needsEncodingChar, Bool.or_eq_false_iff] at hc
    have h1 : ¬ (c = 64 || c = 0 || is_hangul_range c) = true := by
      simp only [Bool.or_eq_true, not_or, Bool.not_eq_true]
      exact ⟨⟨hc.1.1.1, hc.1.1.2⟩, hc.1.2⟩
    rw [hangul_encode_plain c rest h1 (by simp [hc.2]),
      ih (fun x hx => h x (List.mem_cons_of_mem c hx))]

/-! ### Claims -/

/-- C1 counterexample: the text `+x0041` consists only of unprotected
characters, `hangul_encode` leaves it unchanged, and `hangul_decode` turns
it into `A`: the unconditional round-trip law fails. -/
theorem c1_roundtrip_counterexample :
    (∀ c ∈ [43, 120, 48, 48, 52, 49], needsEncodingChar c = false) ∧
    hangul_encode [43, 120, 48, 48, 52, 49] = [43, 120, 48, 48, 52, 49] ∧
    hangul_decode (hangul_encode [43, 120, 48, 48, 52, 49]) = [65] ∧
    hangul_decode (hangul_encode [43, 120, 48, 48, 52, 49]) ≠ [43, 120, 48, 48, 52, 49] := by
  refine ⟨by decide, by decide, by decide, by decide⟩

/-- C1 (amended): for every text containing no literal occurrence of the
escape marker (a plus sign immediately followed by `x` or `X`),
`hangul_decode (hangul_encode t) = t`; in particular this covers every
text of protected characters and marker-free unprotected text. -/
theorem c1_roundtrip_marker_free (t : List Nat) (h : hasEscapeMarker t = false) :
    hangul_decode (hangul_encode t) = t :=
  hangul_decode_encode t h

/-- Witness for C1 on the text `가A@♠` (a Hangul syllable, a plain ASCII
letter, the at sign and a special symbol). -/
theorem c1_roundtrip_marker_free_witness :
    hasEscapeMarker [44032, 65, 64, 9824] = false ∧
    hangul_decode (hangul_encode [44032, 65, 64, 9824]) = [44032, 65, 64, 9824] :=
  ⟨by decide, c1_roundtrip_marker_free [44032, 65, 64, 9824] (by decide)⟩

/-- C2: the needs-encoding predicate fires on `@`, and the extended path
(`default_translate`, used by the TranslateMMNTW handler) applies
`hangul_encode` before and `hangul_decode` after the engine call — but the
legacy wrapper `translate_mmnt` (called directly by the TranslateMMNT
handler) passes the text to the engine with no escape encoding at all.
With identity character-set conversions and an engine that returns its
input unchanged, the legacy pipeline yields the raw text `[64]` — the
engine received `[64]` itself, not `hangul_encode [64]`. -/
theorem c2_legacy_translate_skips_codec :
    needsEncodingChar 64 = true ∧
    translate_mmnt (some (fun b => some b)) (fun b => b) (fun b => (b, false)) [64] =
      .ok [64] ∧
    hangul_encode [64] = [43, 120, 48, 48, 52, 48] ∧
    default_translate true (some (fun u => some u)) none (fun b => b) (fun b => (b, false))
      [64] = .ok [64] := by
  refine ⟨by decide, rfl, by decide, rfl⟩

/-- C6 counterexample: the text `+X0042` contains no protected character,
yet `hangul_decode` maps it to `B`: decode is not the identity on all
unprotected text. -/
theorem c6_unprotected_identity_counterexample :
    (∀ c ∈ [43, 88, 48, 48, 52, 50], needsEncodingChar c = false) ∧
    hangul_encode [43, 88, 48, 48, 52, 50] = [43, 88, 48, 48, 52, 50] ∧
    hangul_decode [43, 88, 48, 48, 52, 50] = [66] ∧
    hangul_decode [43, 88, 48, 48, 52, 50] ≠ [43, 88, 48, 48, 52, 50] := by
  refine ⟨by decide, by decide, by decide, by decide⟩

/-- C6 (amended): on text with no protected characters `hangul_encode` is
the identity, and `hangul_decode` is the identity provided the text also
contains no literal escape-marker pair. -/
theorem c6_unprotected_identity :
    (∀ t, (∀ c ∈ t, needsEncodingChar c = false) → hangul_encode t = t) ∧
    (∀ t, (∀ c ∈ t, needsEncodingChar c = false) → hasEscapeMarker t = false →
      hangul_decode t = t) :=
  ⟨hangul_encode_id, fun t _ h => hangul_decode_id t h⟩

/-- Witness for C6 on the ASCII text `hello`. -/
theorem c6_unprotected_identity_witness :
    hangul_encode [104, 101, 108, 108, 111] = [104, 101, 108, 108, 111] ∧
    hangul_decode [104, 101, 108, 108, 111] = [104, 101, 108, 108, 111] :=
  ⟨c6_unprotected_identity.1 _ (by decide), c6_unprotected_identity.2 _ (by decide) (by decide)⟩

/-- C7 counterexample: a complete escape sequence is the two-character
marker `+x` plus four hexadecimal digits — six characters, not five.  On
`+x0041A` the decoder consumes all six characters of the escape and then
the trailing `A`, producing `AA`; had it consumed only five characters in
total, the sixth character (the hex digit `1`, code 49) would have
remained in the output between the two `A`s. -/
theorem c7_escape_consumes_six_not_five :
    hangul_decode [43, 120, 48, 48, 52, 49, 65] = [65, 65] ∧
    hangul_decode [43, 120, 48, 48, 52, 49, 65] ≠ [65, 49, 65] := by
  refine ⟨by decide, by decide⟩

/-- C7 (amended): on a marker (`+` then `x` or `X`) followed by four ASCII
hex digits denoting a valid code point, `hangul_decode` emits the decoded
character and consumes exactly six characters (the two-character marker
plus the four digits); when the four consumed characters are not valid
hex digits of a scalar value they are re-emitted verbatim together with
the marker, and when fewer than four characters remain after the marker
the marker and the whole remainder are emitted verbatim — decoding never
fails.  The spec's own example `+x12 rest` is returned unchanged. -/
theorem c7_decode_escape_behavior :
    (∀ next d1 d2 d3 d4 rest3, (next = 120 ∨ next = 88) →
      [d1, d2, d3, d4].all isAsciiHexDigit = true →
      isValidCharCode (fromHexDigits [d1, d2, d3, d4]) = true →
      hangul_decode (43 :: next :: d1 :: d2 :: d3 :: d4 :: rest3) =
        fromHexDigits [d1, d2, d3, d4] :: hangul_decode rest3) ∧
    (∀ next d1 d2 d3 d4 rest3, (next = 120 ∨ next = 88) →
      ¬ ([d1, d2, d3, d4].all isAsciiHexDigit = true ∧
        isValidCharCode (fromHexDigits [d1, d2, d3, d4]) = true) →
      hangul_decode (43 :: next :: d1 :: d2 :: d3 :: d4 :: rest3) =
        43 :: next :: d1 :: d2 :: d3 :: d4 :: hangul_decode rest3) ∧
    (∀ next rest2, (next = 120 ∨ next = 88) → rest2.length < 4 →
      hangul_decode (43 :: next :: rest2) = 43 :: next :: rest2) ∧
    hangul_decode [43, 120, 49, 50, 32, 114, 101, 115, 116] =
      [43, 120, 49, 50, 32, 114, 101, 115, 116] :=
  ⟨fun next d1 d2 d3 d4 rest3 hn hh hv =>
      hangul_decode_escape_valid next d1 d2 d3 d4 rest3 hn hh hv,
   fun next d1 d2 d3 d4 rest3 hn hc =>
      hangul_decode_escape_invalid next d1 d2 d3 d4 rest3 hn hc,
   fun next rest2 hn hl => hangul_decode_escape_short next rest2 hn hl,
   by decide⟩

/-- Witness for C7: a valid escape `+x0041`, an invalid escape `+xZZZZ`
(90 is not a hex digit) and a short escape `+x12`. -/
theorem c7_decode_escape_behavior_witness :
    hangul_decode [43, 120, 48, 48, 52, 49] = [65] ∧
    hangul_decode [43, 120, 90, 90, 90, 90] = [43, 120, 90, 90, 90, 90] ∧
    hangul_decode [43, 120, 49, 50] = [43, 120, 49, 50] := by
  refine ⟨?_, ?_, ?_⟩
  · have h := c7_decode_escape_behavior.1 120 48 48 52 49 [] (Or.inl rfl)
      (by decide) (by decide)
    simpa using h
  · have h := c7_decode_escape_behavior.2.1 120 90 90 90 90 [] (Or.inl rfl) (by decide)
    simpa using h
  · exact c7_decode_escape_behavior.2.2.1 120 [49, 50] (Or.inl rfl) (by decide)

theorem handle_initialize_len {E : Type} (ops : EngineOps E) (enew : List Nat → Option E)
    (st : ServerState E) (stream : List WireRec)
    (out : ServerState E × List WireRec × List Response)
    (h : handle_initialize ops enew st stream = .ok out) : out.2.2.length = 1 := by
  unfold handle_initialize at h
  repeat' split at h
  all_goals try (cases h; rfl)
  all_goals exact absurd h (by exact fun hh => Except.noConfusion hh)

theorem handle_translate_mmnt_len {E : Type} (ops : EngineOps E) (cds : Codecs)
    (st : ServerState E) (stream : List WireRec)
    (out : ServerState E × List WireRec × List Response)
    (h : handle_translate_mmnt ops cds st stream = .ok out) : out.2.2.length = 1 := by
  unfold handle_translate_mmnt at h
  dsimp only at h
  repeat' split at h
  all_goals try (cases h; rfl)
  all_goals exact absurd h (by exact fun hh => Except.noConfusion hh)

theorem handle_translate_mmntw_len {E : Type} (ops : EngineOps E) (cds : Codecs)
    (st : ServerState E) (stream : List WireRec)
    (out : ServerState E × List WireRec × List Response)
    (h : handle_translate_mmntw ops cds st stream = .ok out) : out.2.2.length = 1 := by
  unfold handle_translate_mmntw at h
  dsimp only at h
  repeat' split at h
  all_goals try (cases h; rfl)
  all_goals exact absurd h (by exact fun hh => Except.noConfusion hh)

theorem handle_set_property_len {E : Type} (ops : EngineOps E)
    (st : ServerState E) (stream : List WireRec)
    (out : ServerState E × List WireRec × List Response)
    (h : handle_set_property ops st stream = .ok out) : out.2.2.length = 1 := by
  unfold handle_set_property at h
  repeat' split at h
  all_goals try (cases h; rfl)
  all_goals exact absurd h (by exact fun hh => Except.noConfusion hh)

/-- An unrecognized command code (0, or 9 and above) is rejected by the
`TryFrom` conversion. -/
theorem tryFrom_invalid (v : Nat) (hv : v = 0 ∨ 9 ≤ v) :
    Command.tryFrom v = .error (.invalidCommand v) := by
  rcases hv with rfl | hv
  · rfl
  · obtain ⟨k, rfl⟩ := Nat.exists_eq_add_of_le' hv
    rfl

theorem getD_replicate_zero (m i : Nat) : (List.replicate m (0 : Nat)).getD i 0 = 0 := by
  rcases Nat.lt_or_ge i m with h | h
  · rw [List.getD_eq_getElem _ _ (by simpa using h)]
    simp
  · rw [List.getD_eq_default _ _ (by simpa using h)]

/-- Every buffer placed in a legacy translate response has exactly the
4096-byte wire capacity. -/
theorem mmnt_buffer_spec {E : Type} (ops : EngineOps E) (cds : Codecs)
    (st : ServerState E) (stream : List WireRec)
    (out : ServerState E × List WireRec × List Response)
    (h : handle_translate_mmnt ops cds st stream = .ok out) :
    ∀ s rc tr, Response.mmnt s rc tr ∈ out.2.2 → tr.length = 4096 := by
  unfold handle_translate_mmnt at h
  dsimp only at h
  repeat' split at h
  all_goals try exact absurd h (by exact fun hh => Except.noConfusion hh)
  all_goals
    cases h
    intro s rc tr hmem
    simp only [List.mem_singleton, Response.mmnt.injEq] at hmem
  · rw [hmem.2.2]
    simp only [List.length_append, List.length_take, List.length_replicate]
    omega
  · rw [hmem.2.2]
    simp only [List.length_replicate]
  · rw [hmem.2.2]
    simp only [List.length_replicate]

/-- Every buffer placed in an extended translate response has exactly the
4096-code-unit wire capacity and holds a zero terminator within it. -/
theorem mmntw_buffer_spec {E : Type} (ops : EngineOps E) (cds : Codecs)
    (st : ServerState E) (stream : List WireRec)
    (out : ServerState E × List WireRec × List Response)
    (h : handle_translate_mmntw ops cds st stream = .ok out) :
    ∀ s rc tr, Response.mmntw s rc tr ∈ out.2.2 →
      tr.length = 4096 ∧ ∃ i, i < 4096 ∧ tr.getD i 0 = 0 := by
  unfold handle_translate_mmntw at h
  dsimp only at h
  repeat' split at h
  all_goals try exact absurd h (by exact fun hh => Except.noConfusion hh)
  all_goals
    cases h
    intro s rc tr hmem
    simp only [List.mem_singleton, Response.mmntw.injEq] at hmem
    rw [hmem.2.2]
  · constructor
    · simp only [List.length_append, List.length_take, List.length_replicate]
      omega
    · rename_i translated heq
      refine ⟨(List.take (min (utf16Encode translated).length 4095)
        (utf16Encode translated)).length, ?_, ?_⟩
      · simp only [List.length_take]
        omega
      · rw [List.getD_append_right _ _ _ _ (Nat.le_refl _), Nat.sub_self]
        exact getD_replicate_zero _ 0
  · exact ⟨by simp only [List.length_replicate], 0, by norm_num, getD_replicate_zero _ 0⟩
  · exact ⟨by simp only [List.length_replicate], 0, by norm_num, getD_replicate_zero _ 0⟩

/-- Each step preserves the equivalence between the `initialized` flag and
the presence of an engine. -/
theorem process_request_inv {E : Type} (ops : EngineOps E) (enew : List Nat → Option E)
    (cds : Codecs) (st : ServerState E) (stream : List WireRec)
    (out : ServerState E × List WireRec × List Response)
    (hinv : st.initialized = st.engine.isSome)
    (h : process_request ops enew cds st stream = .ok out) :
    out.1.initialized = out.1.engine.isSome := by
  unfold process_request handle_initialize handle_terminate handle_translate_mmnt
    handle_translate_mmntw handle_reload_user_dict handle_set_property at h
  dsimp only at h
  repeat' split at h
  all_goals try (cases h; first | rfl | exact hinv)
  all_goals exact absurd h (by exact fun hh => Except.noConfusion hh)

/-- The invariant holds along every run of the serve loop. -/
theorem run_inv {E : Type} (ops : EngineOps E) (enew : List Nat → Option E)
    (cds : Codecs) (fuel : Nat) :
    ∀ (st : ServerState E) (stream : List WireRec),
      st.initialized = st.engine.isSome →
      (run ops enew cds fuel st stream).1.initialized =
        (run ops enew cds fuel st stream).1.engine.isSome := by
  induction fuel with
  | zero => intro st stream hinv; simpa [run] using hinv
  | succ n ih =>
    intro st stream hinv
    by_cases hr : st.running
    · cases hp : process_request ops enew cds st stream with
      | error e => simpa [run, hr, hp] using hinv
      | ok out =>
        obtain ⟨st', recs', resps⟩ := out
        have h2 := process_request_inv ops enew cds st stream (st', recs', resps) hinv hp
        simp only [run, hr, hp, if_true]
        exact ih st' recs' h2
    · simpa [run, hr] using hinv

/-- C3 counterexample: Shutdown is a recognized command (code 7), yet
`process_request` writes no response record for it — it only clears
`running`.  The response list of the step is empty, not a Success
`GenericResponse`. -/
theorem c3_shutdown_no_response :
    Command.tryFrom 7 = .ok Command.Shutdown ∧
    process_request trivOps trivEnew trivCodecs (newServer Unit)
        [.header { command := 7, payload_size := 0, request_id := 0 }] =
      .ok ({ engine := none, initialized := false, running := false }, [],
        ([] : List Response)) ∧
    ([] : List Response) ≠ [Response.generic Status.Success] :=
  ⟨rfl, rfl, by simp⟩
/-- C3 (amended): every recognized command except Shutdown writes exactly
one response record, whatever the engine environment does (so also on
engine failure); Shutdown writes no response and clears `running`. -/
theorem c3_response_per_command {E : Type} (ops : EngineOps E) (enew : List Nat → Option E)
    (cds : Codecs) (st : ServerState E) (h : MessageHeader) (recs : List WireRec)
    (c : Command) (st' : ServerState E) (recs' : List WireRec) (resps : List Response)
    (htf : Command.tryFrom h.command = .ok c)
    (hp : process_request ops enew cds st (.header h :: recs) = .ok (st', recs', resps)) :
    (c = .Shutdown → resps = [] ∧ st'.running = false) ∧
    (¬ c = .Shutdown → resps.length = 1) := by
  unfold process_request at hp
  dsimp only at hp
  rw [htf] at hp
  cases c <;> dsimp only at hp
  case Initialize =>
    exact ⟨fun hc => (nomatch hc),
      fun _ => handle_initialize_len ops enew st recs (st', recs', resps) hp⟩
  case Terminate =>
    cases hp
    exact ⟨fun hc => (nomatch hc), fun _ => rfl⟩
  case TranslateMMNT =>
    exact ⟨fun hc => (nomatch hc),
      fun _ => handle_translate_mmnt_len ops cds st recs (st', recs', resps) hp⟩
  case TranslateMMNTW =>
    exact ⟨fun hc => (nomatch hc),
      fun _ => handle_translate_mmntw_len ops cds st recs (st', recs', resps) hp⟩
  case ReloadUserDict =>
    cases hp
    exact ⟨fun hc => (nomatch hc), fun _ => rfl⟩
  case SetProperty =>
    exact ⟨fun hc => (nomatch hc),
      fun _ => handle_set_property_len ops st recs (st', recs', resps) hp⟩
  case Shutdown =>
    cases hp
    exact ⟨fun _ => ⟨rfl, rfl⟩, fun hn => absurd rfl hn⟩
  case Ping =>
    cases hp
    exact ⟨fun hc => (nomatch hc), fun _ => rfl⟩
/-- Witness for C3 at the Ping command. -/
theorem c3_response_per_command_witness :
    (Command.Ping = Command.Shutdown →
      ([Response.generic Status.Success] : List Response) = [] ∧
        (newServer Unit).running = false) ∧
    (¬ Command.Ping = Command.Shutdown →
      ([Response.generic Status.Success] : List Response).length = 1) :=
  c3_response_per_command trivOps trivEnew trivCodecs (newServer Unit)
    { command := 8, payload_size := 0, request_id := 0 } [] Command.Ping
    (newServer Unit) [] [Response.generic Status.Success] rfl rfl
/-- C4: a translate command (legacy or extended) arriving while no engine
is attached leaves the state unchanged, writes a NotInitialized response
with result code -1 and an all-zero translated buffer, and never invokes
the engine (there is none to invoke; the result does not depend on the
engine environment `ops`). -/
theorem c4_translate_not_initialized {E : Type} (ops : EngineOps E)
    (enew : List Nat → Option E) (cds : Codecs) (st : ServerState E)
    (ps rid d0 : Nat) (text : List Nat) (recs : List WireRec)
    (h : st.engine = none) :
    process_request ops enew cds st
        (.header ⟨3, ps, rid⟩ :: .mmntReq d0 text :: recs) =
      .ok (st, recs, [.mmnt .NotInitialized (-1) (List.replicate 4096 0)]) ∧
    process_request ops enew cds st
        (.header ⟨4, ps, rid⟩ :: .mmntwReq d0 text :: recs) =
      .ok (st, recs, [.mmntw .NotInitialized (-1) (List.replicate 4096 0)]) := by
  obtain ⟨eng, ini, run⟩ := st
  cases h
  exact ⟨rfl, rfl⟩
/-- Witness for C4 on a fresh session. -/
theorem c4_translate_not_initialized_witness :
    process_request trivOps trivEnew trivCodecs (newServer Unit)
        [.header ⟨3, 0, 0⟩, .mmntReq 0 [0]] =
      .ok (newServer Unit, [], [.mmnt .NotInitialized (-1) (List.replicate 4096 0)]) ∧
    process_request trivOps trivEnew trivCodecs (newServer Unit)
        [.header ⟨4, 0, 0⟩, .mmntwReq 0 [0]] =
      .ok (newServer Unit, [], [.mmntw .NotInitialized (-1) (List.replicate 4096 0)]) :=
  c4_translate_not_initialized trivOps trivEnew trivCodecs (newServer Unit) 0 0 0 [0] [] rfl
/-- C5 counterexample: when the EUC-KR encoding of the translation fills
the whole 4096-byte legacy buffer, the buffer carries no zero terminator
anywhere within its capacity.  Here the engine returns 4096 ASCII digit
characters (code 49; the EUC-KR encoding of ASCII text is those same
non-zero bytes, so the identity codec is faithful), and the response
buffer is 4096 bytes none of which is zero. -/
theorem c5_legacy_buffer_no_terminator :
    ∃ tr, handle_translate_mmnt fullOps trivCodecs initializedState [.mmntReq 0 [0]] =
        .ok (initializedState, [], [.mmnt .Success 0 tr]) ∧
      tr.length = 4096 ∧ ∀ i, i < 4096 → tr.getD i 0 ≠ 0 := by
  refine ⟨_, rfl, ?_, ?_⟩
  · simp only [trivCodecs, fullOps, List.length_append, List.length_take,
      List.length_replicate]
    omega
  · intro i hi
    simp only [trivCodecs, fullOps, List.length_replicate, Nat.min_self,
      List.take_replicate, Nat.sub_self, List.replicate_zero, List.append_nil]
    rw [List.getD_eq_getElem _ _ (by simp only [List.length_replicate]; exact hi)]
    simp only [List.getElem_replicate]
    omega
/-- C5 (amended): translated buffers never overrun their wire capacity —
both response buffers are exactly 4096 units long, with the translation
truncated to fit — and the extended buffer always contains a zero
terminator within its capacity (the text part is capped at 4095 units);
the legacy buffer, however, is only guaranteed a terminator when the
encoded translation is shorter than the full 4096 bytes. -/
theorem c5_buffer_bounds :
    (∀ (E : Type) (ops : EngineOps E) (cds : Codecs) (st : ServerState E)
      (stream : List WireRec) (out : ServerState E × List WireRec × List Response),
      handle_translate_mmnt ops cds st stream = .ok out →
      ∀ s rc tr, Response.mmnt s rc tr ∈ out.2.2 → tr.length = 4096) ∧
    (∀ (E : Type) (ops : EngineOps E) (cds : Codecs) (st : ServerState E)
      (stream : List WireRec) (out : ServerState E × List WireRec × List Response),
      handle_translate_mmntw ops cds st stream = .ok out →
      ∀ s rc tr, Response.mmntw s rc tr ∈ out.2.2 →
        tr.length = 4096 ∧ ∃ i, i < 4096 ∧ tr.getD i 0 = 0) :=
  ⟨fun _ ops cds st stream out h => mmnt_buffer_spec ops cds st stream out h,
   fun _ ops cds st stream out h => mmntw_buffer_spec ops cds st stream out h⟩
/-- Witness for C5 on concrete translate steps of a fresh initialized
session. -/
theorem c5_buffer_bounds_witness :
    (List.replicate 4096 (0 : Nat)).length = 4096 ∧
    ((List.replicate 4096 (0 : Nat)).length = 4096 ∧
      ∃ i, i < 4096 ∧ (List.replicate 4096 (0 : Nat)).getD i 0 = 0) :=
  ⟨c5_buffer_bounds.1 Unit trivOps trivCodecs initializedState [.mmntReq 0 [0]]
      (initializedState, [], [.mmnt .Success 0 (List.replicate 4096 0)]) rfl
      .Success 0 _ (List.mem_singleton_self _),
   c5_buffer_bounds.2 Unit trivOps trivCodecs initializedState [.mmntwReq 0 [0]]
      (initializedState, [], [.mmntw .Success 0 (List.replicate 4096 0)]) rfl
      .Success 0 _ (List.mem_singleton_self _)⟩

/-- C8: command codes 1 through 8 decode to the eight named commands in
order; every other value is rejected with `InvalidCommand` — by
`process_request` immediately after the header, before any payload record
is consumed (the failure does not depend on what follows the header) —
and the rejection ends the serve loop with no further processing. -/
theorem c8_command_decode :
    Command.tryFrom 1 = .ok Command.Initialize ∧
    Command.tryFrom 2 = .ok Command.Terminate ∧
    Command.tryFrom 3 = .ok Command.TranslateMMNT ∧
    Command.tryFrom 4 = .ok Command.TranslateMMNTW ∧
    Command.tryFrom 5 = .ok Command.ReloadUserDict ∧
    Command.tryFrom 6 = .ok Command.SetProperty ∧
    Command.tryFrom 7 = .ok Command.Shutdown ∧
    Command.tryFrom 8 = .ok Command.Ping ∧
    (∀ v, v = 0 ∨ 9 ≤ v → Command.tryFrom v = .error (.invalidCommand v)) ∧
    (∀ (E : Type) (ops : EngineOps E) (enew : List Nat → Option E) (cds : Codecs)
      (st : ServerState E) (h : MessageHeader) (recs : List WireRec),
      h.command = 0 ∨ 9 ≤ h.command →
      process_request ops enew cds st (.header h :: recs) =
        .error (.invalidCommand h.command)) ∧
    (∀ (E : Type) (ops : EngineOps E) (enew : List Nat → Option E) (cds : Codecs)
      (st : ServerState E) (h : MessageHeader) (recs : List WireRec) (fuel : Nat),
      h.command = 0 ∨ 9 ≤ h.command →
      run ops enew cds (fuel + 1) st (.header h :: recs) = (st, [])) := by
  refine ⟨rfl, rfl, rfl, rfl, rfl, rfl, rfl, rfl, tryFrom_invalid, ?_, ?_⟩
  · intro E ops enew cds st h recs hv
    have ht := tryFrom_invalid h.command hv
    simp [process_request, ht]
  · intro E ops enew cds st h recs fuel hv
    have ht := tryFrom_invalid h.command hv
    by_cases hr : st.running
    · simp [run, hr, process_request, ht]
    · simp [run, hr]

/-- Witness for C8 at the invalid command code 9. -/
theorem c8_command_decode_witness :
    Command.tryFrom 9 = .error (.invalidCommand 9) ∧
    process_request trivOps trivEnew trivCodecs (newServer Unit) [.header ⟨9, 0, 0⟩] =
      .error (.invalidCommand 9) ∧
    run trivOps trivEnew trivCodecs 1 (newServer Unit) [.header ⟨9, 0, 0⟩] =
      (newServer Unit, []) := by
  obtain ⟨-, -, -, -, -, -, -, -, hinv, hproc, hrun⟩ := c8_command_decode
  exact ⟨hinv 9 (Or.inr (Nat.le_refl 9)),
    hproc Unit trivOps trivEnew trivCodecs (newServer Unit) ⟨9, 0, 0⟩ []
      (Or.inr (Nat.le_refl 9)),
    hrun Unit trivOps trivEnew trivCodecs (newServer Unit) ⟨9, 0, 0⟩ [] 0
      (Or.inr (Nat.le_refl 9))⟩

/-- C9: in every session state reachable by running the dispatcher from a
fresh `TransProxyServer`, the `initialized` flag is true exactly when an
engine is attached; each single dispatch step preserves the equivalence. -/
theorem c9_initialized_iff_engine :
    (∀ (E : Type) (ops : EngineOps E) (enew : List Nat → Option E) (cds : Codecs)
      (st : ServerState E) (stream : List WireRec)
      (out : ServerState E × List WireRec × List Response),
      st.initialized = st.engine.isSome →
      process_request ops enew cds st stream = .ok out →
      out.1.initialized = out.1.engine.isSome) ∧
    (∀ (E : Type) (ops : EngineOps E) (enew : List Nat → Option E) (cds : Codecs)
      (fuel : Nat) (stream : List WireRec),
      (run ops enew cds fuel (newServer E) stream).1.initialized =
        (run ops enew cds fuel (newServer E) stream).1.engine.isSome) :=
  ⟨fun _ ops enew cds st stream out hinv hp =>
      process_request_inv ops enew cds st stream out hinv hp,
   fun _ ops enew cds fuel stream => run_inv ops enew cds fuel _ stream rfl⟩

/-- Witness for C9: one step from a fresh session through a successful
Initialize, and a two-step run. -/
theorem c9_initialized_iff_engine_witness :
    initializedState.initialized = initializedState.engine.isSome ∧
    (run trivOps trivEnew trivCodecs 2 (newServer Unit)
        [.header ⟨1, 0, 0⟩, .initReq []]).1.initialized =
      (run trivOps trivEnew trivCodecs 2 (newServer Unit)
        [.header ⟨1, 0, 0⟩, .initReq []]).1.engine.isSome :=
  ⟨c9_initialized_iff_engine.1 Unit trivOps trivEnew trivCodecs (newServer Unit)
      [.header ⟨1, 0, 0⟩, .initReq []]
      (initializedState, [], [.initResp .Success true]) rfl rfl,
   c9_initialized_iff_engine.2 Unit trivOps trivEnew trivCodecs 2
      [.header ⟨1, 0, 0⟩, .initReq []]⟩

/-- C10: when Initialize fails — either the engine constructor or the
extended initialization — the handler writes an Error response and the
session state (engine, `initialized`, `running`) is exactly what it was
before; in particular an engine attached by an earlier successful
Initialize stays attached and later commands keep using it. -/
theorem c10_failed_initialize_preserves_state {E : Type} (ops : EngineOps E)
    (enew : List Nat → Option E) (cds : Codecs) (st : ServerState E)
    (path : List Nat) (ps rid : Nat) (recs : List WireRec)
    (hfail : ∀ e, enew path = some e → ops.initialize_ex e = false) :
    process_request ops enew cds st (.header ⟨1, ps, rid⟩ :: .initReq path :: recs) =
      .ok (st, recs, [.initResp .Error false]) := by
  cases he : enew path with
  | none => simp [process_request, Command.tryFrom, handle_initialize, he]
  | some e =>
    have hf := hfail e he
    simp [process_request, Command.tryFrom, handle_initialize, he, hf]

/-- Witness for C10: a failing Initialize received in a session that
already holds an engine leaves that session untouched. -/
theorem c10_failed_initialize_preserves_state_witness :
    (∀ e : Unit, trivEnew [] = some e → failInitOps.initialize_ex e = false) ∧
    process_request failInitOps trivEnew trivCodecs initializedState
        [.header ⟨1, 0, 0⟩, .initReq []] =
      .ok (initializedState, [], [.initResp .Error false]) :=
  ⟨fun _ _ => rfl,
   c10_failed_initialize_preserves_state failInitOps trivEnew trivCodecs initializedState
      [] 0 0 [] (fun _ _ => rfl)⟩

end EzTrans
